import Mathlib

/-!
Verification of the NYC taxi fare feature pipeline
(`src/random_forest_pyspark.py`) against its natural-language
specification.  Real-valued columns are modelled as exact rationals
(`ℚ`) except where a square root forces `ℝ`; Spark dataframes are
modelled as Lean lists of records; the Spark ML stages used by
`encode_df` (`StringIndexer` with its default `frequencyDesc` ordering
and error behaviour on unseen labels, `OneHotEncoder` with its default
`dropLast`, `VectorAssembler` concatenation) are embedded by their
documented semantics, since they are library code invoked by the
source.
-/

/-- A raw input row.  Every column is optional: Spark's CSV reader
produces `null` for a missing field, and `df.na.drop()` in
`load_and_process_data` removes rows with a `null` in any column. -/
structure RawTripRecord where
  key : Option String
  fare_amount : Option ℚ
  pickup_datetime : Option String
  pickup_longitude : Option ℚ
  pickup_latitude : Option ℚ
  dropoff_longitude : Option ℚ
  dropoff_latitude : Option ℚ
  passenger_count : Option ℤ
deriving DecidableEq, Repr

/-- Spark comparison against a possibly-null column: a `null` operand
makes the predicate evaluate to null, and `filter` drops such rows, so
the row passes only when the field is present and the test holds. -/
def optTest {α : Type} (p : α → Bool) : Option α → Bool
  | some x => p x
  | none => false

/-- Row test of `df.na.drop()`: no null in any field. -/
def naPred (r : RawTripRecord) : Bool :=
  r.key.isSome && r.fare_amount.isSome && r.pickup_datetime.isSome &&
  r.pickup_longitude.isSome && r.pickup_latitude.isSome &&
  r.dropoff_longitude.isSome && r.dropoff_latitude.isSome &&
  r.passenger_count.isSome

/-- Row test of `df.filter(df.fare_amount >= 0)`. -/
def farePred (r : RawTripRecord) : Bool :=
  optTest (fun f => decide (0 ≤ f)) r.fare_amount

/-- Row test of the bounding-box filter on the four coordinate columns
(longitude in [-80,-70], latitude in [39,45], pickup and dropoff). -/
def boxPred (r : RawTripRecord) : Bool :=
  optTest (fun x => decide (x ≤ -70) && decide (-80 ≤ x)) r.pickup_longitude &&
  optTest (fun x => decide (x ≤ -70) && decide (-80 ≤ x)) r.dropoff_longitude &&
  optTest (fun x => decide (x ≤ 45) && decide (39 ≤ x)) r.pickup_latitude &&
  optTest (fun x => decide (x ≤ 45) && decide (39 ≤ x)) r.dropoff_latitude

/-- Row test of `df.filter((df.passenger_count > 0) &
(df.passenger_count <= 10))`. -/
def passPred (r : RawTripRecord) : Bool :=
  optTest (fun p => decide (0 < p) && decide (p ≤ 10)) r.passenger_count

/-- `df.na.drop()`. -/
def naDrop (df : List RawTripRecord) : List RawTripRecord := df.filter naPred

/-- The fare filter stage. -/
def filterFare (df : List RawTripRecord) : List RawTripRecord := df.filter farePred

/-- The bounding-box filter stage. -/
def filterBox (df : List RawTripRecord) : List RawTripRecord := df.filter boxPred

/-- The passenger-count filter stage. -/
def filterPassenger (df : List RawTripRecord) : List RawTripRecord := df.filter passPred

/-- The row-dropping portion of `load_and_process_data`: null removal,
the fare, bounding-box and passenger-count filters, in source order.
(The subsequent `withColumn` timestamp derivations add columns and drop
no rows; the derived per-value functions are modelled separately as
`get_hour`, `get_year` and `get_zone`.) -/
def load_and_process_data (df : List RawTripRecord) : List RawTripRecord :=
  filterPassenger (filterBox (filterFare (naDrop df)))

/-- The validity predicate exactly as the specification words it: no
missing field, non-negative fare, passenger count in [1,10], and both
coordinate pairs inside the bounding box.  Stated from the spec, to be
compared with the filter chain `load_and_process_data` from the source. -/
def specValidRecord (r : RawTripRecord) : Bool :=
  r.key.isSome && r.pickup_datetime.isSome &&
  optTest (fun f => decide (0 ≤ f)) r.fare_amount &&
  optTest (fun p => decide (1 ≤ p) && decide (p ≤ 10)) r.passenger_count &&
  optTest (fun x => decide (-80 ≤ x) && decide (x ≤ -70)) r.pickup_longitude &&
  optTest (fun x => decide (39 ≤ x) && decide (x ≤ 45)) r.pickup_latitude &&
  optTest (fun x => decide (-80 ≤ x) && decide (x ≤ -70)) r.dropoff_longitude &&
  optTest (fun x => decide (39 ≤ x) && decide (x ≤ 45)) r.dropoff_latitude

/-- `compute_distance`: plane Euclidean distance, `((lon1-lon2)**2 +
(lat1-lat2)**2)**(1/2)`. -/
noncomputable def compute_distance (lon1 lat1 lon2 lat2 : ℝ) : ℝ :=
  Real.sqrt ((lon1 - lon2) ^ 2 + (lat1 - lat2) ^ 2)

/-- `get_hour`: the if/elif chain bucketing a local hour into
three-hour bands, with a catch-all for out-of-range values. -/
def get_hour (x : ℤ) : String :=
  if 0 ≤ x ∧ x < 3 then "hour_0"
  else if 3 ≤ x ∧ x < 6 then "hour_1"
  else if 6 ≤ x ∧ x < 9 then "hour_2"
  else if 9 ≤ x ∧ x < 12 then "hour_3"
  else if 12 ≤ x ∧ x < 15 then "hour_4"
  else if 15 ≤ x ∧ x < 18 then "hour_5"
  else if 18 ≤ x ∧ x < 21 then "hour_6"
  else if 21 ≤ x ∧ x < 24 then "hour_7"
  else "hour_8"

/-- `get_year`: the literal label `"year_" + str(x)`. -/
def get_year (x : ℤ) : String := "year_" ++ toString x

/-- Python `int()` applied to a rational: truncation toward zero,
computed on the reduced numerator and denominator. -/
def pyInt (q : ℚ) : ℤ := q.num.tdiv q.den


/-- `get_zone`: `int((lon+80)*10) + int((lat-39)*10)`, rendered as
`"zone_" + str(zone_number)`. -/
def get_zone (lon lat : ℚ) : String :=
  "zone_" ++ toString (pyInt ((lon + 80) * 10) + pyInt ((lat - 39) * 10))

/-- A record as it stands when `encode_df` runs: the derived columns
used by the `VectorAssembler`, plus the fare label. -/
structure EnrichedRecord where
  dist : ℚ
  pickup_hour : String
  pickup_year : String
  pickup_dow : String
  pickup_zone : String
  dropoff_zone : String
  passenger_count : ℤ
  fare_amount : ℚ
deriving DecidableEq, Repr

/-- Lexicographic comparison of character sequences (the usual string
order, written out structurally). -/
def charListLe : List Char → List Char → Bool
  | [], _ => true
  | _ :: _, [] => false
  | a :: as, b :: bs =>
    if a < b then true
    else if b < a then false
    else charListLe as bs

/-- String comparison through `charListLe`. -/
def strLe (a b : String) : Bool := charListLe a.data b.data

/-- Ordering used by a fitted `StringIndexer` under its default
`frequencyDesc` policy: more frequent labels first, ties broken by
ascending lexicographic order of the label (the documented Spark
behaviour for equal frequencies). -/
def labelLE (xs : List String) (a b : String) : Prop :=
  xs.count b < xs.count a ∨ (xs.count a = xs.count b ∧ strLe a b = true)

instance (xs : List String) : DecidableRel (labelLE xs) := fun a b =>
  inferInstanceAs (Decidable
    (xs.count b < xs.count a ∨ (xs.count a = xs.count b ∧ strLe a b = true)))

instance (xs : List String) : IsTotal String (labelLE xs) where
  total a b := by
    have htot : ∀ as bs : List Char,
        charListLe as bs = true ∨ charListLe bs as = true := by
      intro as
      induction as with
      | nil => intro bs; left; rfl
      | cons a2 as ih =>
        intro bs
        cases bs with
        | nil => right; rfl
        | cons b2 bs =>
          by_cases h1 : a2 < b2
          · left; simp [charListLe, h1]
          · by_cases h2 : b2 < a2
            · right; simp [charListLe, h2]
            · rcases ih bs with h | h
              · left; simp [charListLe, h1, h2, h]
              · right; simp [charListLe, h1, h2, h]
    unfold labelLE
    rcases lt_trichotomy (xs.count a) (xs.count b) with h | h | h
    · exact Or.inr (Or.inl h)
    · rcases htot a.data b.data with hab | hab
      · exact Or.inl (Or.inr ⟨h, hab⟩)
      · exact Or.inr (Or.inr ⟨h.symm, hab⟩)
    · exact Or.inl (Or.inl h)

instance (xs : List String) : IsTrans String (labelLE xs) where
  trans a b c hab hbc := by
    have htr : ∀ as bs cs : List Char, charListLe as bs = true →
        charListLe bs cs = true → charListLe as cs = true := by
      intro as
      induction as with
      | nil => intro bs cs _ _; rfl
      | cons a2 as ih =>
        intro bs cs h1ab h1bc
        cases bs with
        | nil => simp [charListLe] at h1ab
        | cons b2 bs =>
          cases cs with
          | nil => simp [charListLe] at h1bc
          | cons c2 cs =>
            by_cases h1 : a2 < b2
            · by_cases h2 : b2 < c2
              · simp [charListLe, lt_trans h1 h2]
              · by_cases h3 : c2 < b2
                · simp [charListLe, h2, h3] at h1bc
                · have hbc2 : b2 = c2 := le_antisymm (not_lt.mp h3) (not_lt.mp h2)
                  subst hbc2
                  simp [charListLe, h1]
            · by_cases h4 : b2 < a2
              · simp [charListLe, h1, h4] at h1ab
              · have hab2 : a2 = b2 := le_antisymm (not_lt.mp h4) (not_lt.mp h1)
                subst hab2
                by_cases h2 : a2 < c2
                · simp [charListLe, h2]
                · by_cases h3 : c2 < a2
                  · simp [charListLe, h2, h3] at h1bc
                  · simp only [charListLe, if_neg h1, if_neg h2, if_neg h3] at h1ab h1bc ⊢
                    exact ih bs cs h1ab h1bc
    unfold labelLE at *
    rcases hab with h1 | ⟨h1, h1le⟩ <;> rcases hbc with h2 | ⟨h2, h2le⟩
    · exact Or.inl (h2.trans h1)
    · exact Or.inl (h2 ▸ h1)
    · exact Or.inl (h1 ▸ h2)
    · exact Or.inr ⟨h1.trans h2, htr a.data b.data c.data h1le h2le⟩

/-- `StringIndexer(...).fit`: the distinct labels of the column,
ranked most-frequent-first (`frequencyDesc`, ties lexicographic); the
integer code of a label is its position in this list. -/
def fitLabels (xs : List String) : List String :=
  List.insertionSort (labelLE xs) xs.dedup

/-- The transform half of a fitted `StringIndexer`: look the label up
in the fitted list; an absent label raises (Spark default
`handleInvalid="error"`), modelled as an `UnknownCategory` error. -/
def transformLabel (labels : List String) (x : String) : Except String ℕ :=
  match labels.findIdx? (fun y => y = x) with
  | some i => Except.ok i
  | none => Except.error "UnknownCategory"

/-- `OneHotEncoder` with its default `dropLast=True`: a category code
`c` out of `card` categories becomes a vector of width `card - 1`
holding a single 1 at position `c` — except the last category
(`c = card - 1`), which becomes the all-zero vector. -/
def oneHot (card : ℕ) (c : ℕ) : List ℚ :=
  (List.range (card - 1)).map fun i => if i = c then 1 else 0

/-- The per-record transform assembled by the pipeline in `encode_df`:
index each of the five categorical columns, one-hot each code, and
concatenate `[dist] ++ hour ++ year ++ dow ++ pickup_zone ++
dropoff_zone ++ [passenger_count]`, paired with the fare as label. -/
def encodeRecord (hourIdx yearIdx dowIdx puzIdx dozIdx : List String)
    (r : EnrichedRecord) : Except String (ℚ × List ℚ) :=
  match transformLabel hourIdx r.pickup_hour with
  | Except.error e => Except.error e
  | Except.ok h =>
  match transformLabel yearIdx r.pickup_year with
  | Except.error e => Except.error e
  | Except.ok y =>
  match transformLabel dowIdx r.pickup_dow with
  | Except.error e => Except.error e
  | Except.ok d =>
  match transformLabel puzIdx r.pickup_zone with
  | Except.error e => Except.error e
  | Except.ok p =>
  match transformLabel dozIdx r.dropoff_zone with
  | Except.error e => Except.error e
  | Except.ok q =>
  Except.ok (r.fare_amount,
    [r.dist] ++ oneHot hourIdx.length h ++ oneHot yearIdx.length y ++
    oneHot dowIdx.length d ++ oneHot puzIdx.length p ++
    oneHot dozIdx.length q ++ [(r.passenger_count : ℚ)])

/-- The batch transform: every record is encoded and a failing record
fails the whole batch (fail-fast). -/
def transformDf (hourIdx yearIdx dowIdx puzIdx dozIdx : List String) :
    List EnrichedRecord → Except String (List (ℚ × List ℚ))
  | [] => Except.ok []
  | r :: rs =>
    match encodeRecord hourIdx yearIdx dowIdx puzIdx dozIdx r with
    | Except.error e => Except.error e
    | Except.ok v =>
      match transformDf hourIdx yearIdx dowIdx puzIdx dozIdx rs with
      | Except.error e => Except.error e
      | Except.ok vs => Except.ok (v :: vs)

/-- `encode_df`: fit the five indexers over the dataset, then run the
assembled transform over the same dataset, producing labelled points
`(fare, feature_vector)`. -/
def encode_df (rs : List EnrichedRecord) : Except String (List (ℚ × List ℚ)) :=
  transformDf
    (fitLabels (rs.map (fun r => r.pickup_hour)))
    (fitLabels (rs.map (fun r => r.pickup_year)))
    (fitLabels (rs.map (fun r => r.pickup_dow)))
    (fitLabels (rs.map (fun r => r.pickup_zone)))
    (fitLabels (rs.map (fun r => r.dropoff_zone)))
    rs

/-- Modelled from the spec: `RDD.randomSplit` is library code absent
from the repository.  Per §4.4 each example is assigned independently:
a per-record uniform draw below `f` sends it to training, otherwise to
evaluation.  The seeded random stream is the explicit `draw` argument
(draw `n` is the uniform variate for the record at position `n`). -/
def randomSplitModel {α : Type} (draw : ℕ → ℚ) (f : ℚ) (xs : List α) :
    List α × List α :=
  ((xs.enum.filter fun p => decide (draw p.1 < f)).map Prod.snd,
   (xs.enum.filter fun p => !decide (draw p.1 < f)).map Prod.snd)

/-- `train_test_split`: wraps the random split with weights
`[train_fraction, 1 - train_fraction]`. -/
def train_test_split {α : Type} (draw : ℕ → ℚ) (data : List α)
    (train_fraction : ℚ) : List α × List α :=
  randomSplitModel draw train_fraction data

/-- The radicand computed by `compute_rmse`: the squared differences
over `zip(pred, truths)` (zip-to-shortest), summed and divided by
`len(pred)`. -/
def compute_rmse_sq (pred truths : List ℚ) : ℚ :=
  (((pred.zip truths).map fun p => (p.1 - p.2) ^ 2).sum) / (pred.length : ℚ)

/-- `compute_rmse`: square root of `compute_rmse_sq`, i.e.
`(sum((i-j)**2 for i,j in zip(pred,truths)) / len(pred)) ** (1/2)`. -/
noncomputable def compute_rmse (pred truths : List ℚ) : ℝ :=
  Real.sqrt ((compute_rmse_sq pred truths : ℚ) : ℝ)

/-- Demo dataset, record 1: all five categorical fields take their
first value, distance 1, one passenger, fare 5. -/
def demoRec1 : EnrichedRecord :=
  ⟨1, "hour_0", "year_2009", "Mon", "zone_1", "zone_2", 1, 5⟩

/-- Demo dataset, record 2: all five categorical fields take their
second value, distance 2, two passengers, fare 7. -/
def demoRec2 : EnrichedRecord :=
  ⟨2, "hour_1", "year_2010", "Tue", "zone_3", "zone_4", 2, 7⟩

/-- On non-negative rationals, Python truncation agrees with `floor`. -/
theorem pyInt_eq_floor {q : ℚ} (h : 0 ≤ q) : pyInt q = ⌊q⌋ := by
  rw [pyInt, Int.tdiv_eq_ediv (Rat.num_nonneg.mpr h) (Int.ofNat_nonneg q.den),
    Rat.floor_def]

theorem charListLe_total : ∀ as bs : List Char,
    charListLe as bs = true ∨ charListLe bs as = true := by
  intro as
  induction as with
  | nil => intro bs; left; rfl
  | cons a as ih =>
    intro bs
    cases bs with
    | nil => right; rfl
    | cons b bs =>
      by_cases h1 : a < b
      · left; simp [charListLe, h1]
      · by_cases h2 : b < a
        · right; simp [charListLe, h2]
        · rcases ih bs with h | h
          · left; simp [charListLe, h1, h2, h]
          · right; simp [charListLe, h1, h2, h]

theorem charListLe_trans : ∀ as bs cs : List Char,
    charListLe as bs = true → charListLe bs cs = true → charListLe as cs = true := by
  intro as
  induction as with
  | nil => intro bs cs _ _; rfl
  | cons a as ih =>
    intro bs cs hab hbc
    cases bs with
    | nil => simp [charListLe] at hab
    | cons b bs =>
      cases cs with
      | nil => simp [charListLe] at hbc
      | cons c cs =>
        by_cases h1 : a < b
        · by_cases h2 : b < c
          · simp [charListLe, lt_trans h1 h2]
          · by_cases h3 : c < b
            · simp [charListLe, h2, h3] at hbc
            · have hbc2 : b = c := le_antisymm (not_lt.mp h3) (not_lt.mp h2)
              subst hbc2
              simp [charListLe, h1]
        · by_cases h4 : b < a
          · simp [charListLe, h1, h4] at hab
          · have hab2 : a = b := le_antisymm (not_lt.mp h4) (not_lt.mp h1)
            subst hab2
            by_cases h2 : a < c
            · simp [charListLe, h2]
            · by_cases h3 : c < a
              · simp [charListLe, h2, h3] at hbc
              · simp only [charListLe, h1, h2, h3, if_neg, if_pos] at *
                simp only [if_neg h2, if_neg h3]
                exact ih bs cs hab hbc

/-- C10: `compute_distance` is symmetric under swapping the two
endpoints and its result is non-negative. -/
theorem C10_distance_symm_nonneg :
    ∀ lon1 lat1 lon2 lat2 : ℝ,
      compute_distance lon1 lat1 lon2 lat2 = compute_distance lon2 lat2 lon1 lat1 ∧
      0 ≤ compute_distance lon1 lat1 lon2 lat2 := by
  intro lon1 lat1 lon2 lat2
  constructor
  · unfold compute_distance
    congr 1
    ring
  · exact Real.sqrt_nonneg _

/-- C3 counterexample: on the integer range [0,24) the hour-bucket
function takes 8 distinct labels, not 9: it cannot partition [0,24)
into 9 bands of width 3. -/
theorem C3_counterexample :
    ¬ ((Finset.Ico (0 : ℤ) 24).image get_hour).card = 9 := by decide

/-- C3 (amended): `get_hour` is total on [0,24) and partitions it into
exactly 8 contiguous non-overlapping bands of width 3, band `[3*i,
3*i+3)` carrying label `hour_i` for `i = 0..7`; every value below 0 or
at least 24 maps to the catch-all `hour_8`. -/
theorem C3_hour_buckets :
    (∀ x : ℤ, 0 ≤ x → x < 24 → get_hour x = "hour_" ++ toString (x / 3)) ∧
    (∀ x : ℤ, x < 0 ∨ 24 ≤ x → get_hour x = "hour_8") ∧
    ((Finset.Ico (0 : ℤ) 24).image get_hour).card = 8 := by
  refine ⟨?_, ?_, by decide⟩
  · intro x h1 h2
    interval_cases x <;> rfl
  · intro x h
    unfold get_hour
    split_ifs <;> first | rfl | omega

/-- C3 witness: the bucket of hour 5 follows the band formula. -/
theorem C3_hour_buckets_witness :
    get_hour 5 = "hour_" ++ toString ((5 : ℤ) / 3) :=
  C3_hour_buckets.1 5 (by decide) (by decide)

/-- C4: for coordinates on or above the box's lower bounds (where
Python `int()` truncation agrees with `floor`), `get_zone` computes
`"zone_" ++ (floor((lon+80)*10) + floor((lat-39)*10))`; in particular
`zone(-80.0, 39.0) = "zone_0"`, `zone(-79.9, 39.0) = "zone_1"`, and
the additive collision `zone(-79.8, 39.1) = zone(-79.7, 39.0)`. -/
theorem C4_zone_formula :
    (∀ lon lat : ℚ, -80 ≤ lon → 39 ≤ lat →
      get_zone lon lat = "zone_" ++ toString (⌊(lon + 80) * 10⌋ + ⌊(lat - 39) * 10⌋)) ∧
    get_zone (-80) 39 = "zone_0" ∧
    get_zone (-799/10) 39 = "zone_1" ∧
    get_zone (-798/10) (391/10) = get_zone (-797/10) 39 := by
  refine ⟨?_, by norm_num [get_zone, pyInt]; rfl, by norm_num [get_zone, pyInt]; rfl,
    by norm_num [get_zone, pyInt]⟩
  intro lon lat h1 h2
  have hlon : (0 : ℚ) ≤ (lon + 80) * 10 := by nlinarith
  have hlat : (0 : ℚ) ≤ (lat - 39) * 10 := by nlinarith
  unfold get_zone
  rw [pyInt_eq_floor hlon, pyInt_eq_floor hlat]

/-- C4 witness: the floor formula instantiated at the box corner. -/
theorem C4_zone_formula_witness :
    get_zone (-80) 39 =
      "zone_" ++ toString (⌊(((-80 : ℚ)) + 80) * 10⌋ + ⌊(((39 : ℚ)) - 39) * 10⌋) :=
  C4_zone_formula.1 (-80) 39 (by norm_num) (by norm_num)

/-- The conjunction of the four row tests applied by the source's
filter chain coincides, row by row, with the specification's validity
predicate. -/
theorem sourcePred_eq_specValid (r : RawTripRecord) :
    (passPred r && (boxPred r && (farePred r && naPred r))) = specValidRecord r := by
  obtain ⟨k, f, d, plon, plat, dlon, dlat, pc⟩ := r
  cases k <;> cases f <;> cases d <;> cases plon <;> cases plat <;>
    cases dlon <;> cases dlat <;> cases pc <;>
    simp only [passPred, boxPred, farePred, naPred, specValidRecord, optTest,
      Option.isSome_some, Option.isSome_none, Bool.false_and, Bool.and_false,
      Bool.true_and, Bool.and_true] <;>
    try rfl
  rw [Bool.eq_iff_iff]
  simp only [Bool.and_eq_true, decide_eq_true_eq, Int.lt_iff_add_one_le, zero_add]
  tauto

/-- C5: the validator is exactly the order-preserving filter by the
spec's validity predicate (no missing field, fare at least 0,
passenger count in [1,10], both coordinate pairs in the bounding box);
it is total — dropped records raise nothing — and its output is a
subsequence of its input containing exactly the valid records. -/
theorem C5_validator_is_filter :
    ∀ df : List RawTripRecord,
      load_and_process_data df = df.filter specValidRecord ∧
      (load_and_process_data df).Sublist df ∧
      ∀ r : RawTripRecord,
        (r ∈ load_and_process_data df ↔ r ∈ df ∧ specValidRecord r = true) := by
  intro df
  have hchain : load_and_process_data df = df.filter specValidRecord := by
    unfold load_and_process_data filterPassenger filterBox filterFare naDrop
    rw [List.filter_filter, List.filter_filter, List.filter_filter]
    exact List.filter_congr fun r _ => by
      rw [Bool.and_assoc, Bool.and_assoc]
      exact sourcePred_eq_specValid r
  refine ⟨hchain, ?_, ?_⟩
  · rw [hchain]; exact List.filter_sublist df
  · intro r
    rw [hchain, List.mem_filter]

/-- The squared differences summed over `zip` equal an index-based sum
over the common prefix of the two lists. -/
theorem sum_zip_sq (ps : List ℚ) : ∀ ts : List ℚ,
    ((ps.zip ts).map fun p => (p.1 - p.2) ^ 2).sum =
      ∑ i ∈ Finset.range (min ps.length ts.length),
        (ps.getD i 0 - ts.getD i 0) ^ 2 := by
  induction ps with
  | nil => intro ts; simp
  | cons a ps ih =>
    intro ts
    cases ts with
    | nil => simp
    | cons b ts =>
      simp only [List.zip_cons_cons, List.map_cons, List.sum_cons, ih ts,
        List.length_cons, Nat.succ_min_succ, Finset.sum_range_succ']
      simp [add_comm]

/-- C6: on non-empty equal-length inputs, `compute_rmse` is
`sqrt(mean((p_i - t_i)^2))` with pairing strictly by position; in
particular `rmse([3,4],[0,0]) = sqrt((9+16)/2)` and the RMSE of a
non-empty sequence against itself is 0. -/
theorem C6_rmse_mean_formula :
    (∀ ps ts : List ℚ, ps ≠ [] → ps.length = ts.length →
      compute_rmse ps ts =
        Real.sqrt ((∑ i ∈ Finset.range ps.length,
          ((ps.getD i 0 : ℝ) - (ts.getD i 0 : ℝ)) ^ 2) / (ps.length : ℝ))) ∧
    compute_rmse [3, 4] [0, 0] = Real.sqrt ((9 + 16) / 2) ∧
    (∀ xs : List ℚ, xs ≠ [] → compute_rmse xs xs = 0) := by
  refine ⟨?_, ?_, ?_⟩
  · intro ps ts hne hlen
    unfold compute_rmse
    congr 1
    have hmin : min ps.length ts.length = ps.length := by omega
    rw [compute_rmse_sq, sum_zip_sq, hmin]
    push_cast
    rfl
  · unfold compute_rmse
    congr 1
    have : compute_rmse_sq [3, 4] [0, 0] = 25 / 2 := by
      simp [compute_rmse_sq]
      norm_num
    rw [this]
    norm_num
  · intro xs hne
    unfold compute_rmse
    have : compute_rmse_sq xs xs = 0 := by
      rw [compute_rmse_sq, sum_zip_sq]
      simp
    rw [this]
    simp

/-- C6 witness: the RMSE of `[3]` against itself is 0. -/
theorem C6_rmse_mean_formula_witness : compute_rmse [3] [3] = 0 :=
  C6_rmse_mean_formula.2.2 [3] (by decide)

/-- C1 counterexample: on the unequal-length pair `[3]` and `[0, 100]`
the source's `compute_rmse` does not fail: it silently truncates to
the shorter sequence — the result equals the RMSE against `[0]` alone
and the extra truth value 100 is ignored — and returns the value 3. -/
theorem C1_counterexample :
    compute_rmse [3] [0, 100] = 3 ∧
    compute_rmse [3] [0, 100] = compute_rmse [3] [0] := by
  have h9 : compute_rmse_sq [3] [0, 100] = 9 := by
    norm_num [compute_rmse_sq]
  constructor
  · unfold compute_rmse
    rw [h9]
    rw [show ((9 : ℚ) : ℝ) = 3 ^ 2 by norm_num]
    exact Real.sqrt_sq (by norm_num)
  · unfold compute_rmse
    congr 1

/-- C1 (amended): on prediction/truth sequences of differing lengths
`compute_rmse` raises nothing; it pairs zip-to-shortest and divides by
the prediction count, returning `sqrt((sum of squared differences over
the common prefix) / len(predictions))`. -/
theorem C1_rmse_truncates :
    ∀ ps ts : List ℚ, ps.length ≠ ts.length →
      compute_rmse ps ts =
        Real.sqrt ((∑ i ∈ Finset.range (min ps.length ts.length),
          ((ps.getD i 0 : ℝ) - (ts.getD i 0 : ℝ)) ^ 2) / (ps.length : ℝ)) := by
  intro ps ts hne
  unfold compute_rmse
  congr 1
  rw [compute_rmse_sq, sum_zip_sq]
  push_cast
  rfl

/-- C1 witness: the truncating formula instantiated on `[3]` against
`[0, 100]`. -/
theorem C1_rmse_truncates_witness :
    compute_rmse [3] [0, 100] =
      Real.sqrt ((∑ i ∈ Finset.range (min (List.length [(3 : ℚ)]) (List.length [(0 : ℚ), 100])),
        (((List.getD [(3 : ℚ)] i 0 : ℚ) : ℝ) - ((List.getD [(0 : ℚ), 100] i 0 : ℚ) : ℝ)) ^ 2) /
          ((List.length [(3 : ℚ)]) : ℝ)) :=
  C1_rmse_truncates [3] [0, 100] (by decide)

/-- Splitting a list by a predicate on indexed elements partitions its
multiset of elements: for every value, the two occurrence counts add
up to the occurrence count in the input. -/
theorem count_split_enumFrom {α : Type} [DecidableEq α] (p : ℕ × α → Bool) :
    ∀ (xs : List α) (n : ℕ) (a : α),
      (((xs.enumFrom n).filter p).map Prod.snd).count a +
      (((xs.enumFrom n).filter fun q => !p q).map Prod.snd).count a = xs.count a := by
  intro xs
  induction xs with
  | nil => intro n a; simp
  | cons x xs ih =>
    intro n a
    rcases eq_or_ne x a with hxa | hxa
    · subst hxa
      by_cases hp : p (n, x) <;>
        · simp [List.filter_cons, hp, List.count_cons, ← ih (n + 1) x]
          omega
    · by_cases hp : p (n, x) <;>
        simp [List.filter_cons, hp, hxa, Ne.symm hxa, List.count_cons,
          ← ih (n + 1) a] <;> omega

/-- C9: the split is driven by an explicit seeded random stream and a
`train_fraction` in (0,1): two runs over the same input with the same
stream produce identical partitions, and every example lands in
exactly one of the two subsets (occurrence counts add up). -/
theorem C9_split_deterministic :
    ∀ (α : Type) [inst : DecidableEq α] (draw draw2 : ℕ → ℚ) (xs : List α) (f : ℚ),
      0 < f → f < 1 →
      ((∀ n, draw n = draw2 n) →
        train_test_split draw xs f = train_test_split draw2 xs f) ∧
      (∀ a : α,
        (train_test_split draw xs f).1.count a +
          (train_test_split draw xs f).2.count a = xs.count a) := by
  intro α inst draw draw2 xs f h0 h1
  constructor
  · intro hdraw
    have : draw = draw2 := funext hdraw
    rw [this]
  · intro a
    unfold train_test_split randomSplitModel
    exact count_split_enumFrom (fun p => decide (draw p.1 < f)) xs 0 a

/-- C9 witness: a one-element split with the constant-zero stream and
fraction 1/2 is reproducible and conserves the element. -/
theorem C9_split_deterministic_witness :
    (train_test_split (fun _ => 0) ([7] : List ℕ) (1/2) =
      train_test_split (fun _ => 0) [7] (1/2)) ∧
    (train_test_split (fun _ => 0) ([7] : List ℕ) (1/2)).1.count 7 +
      (train_test_split (fun _ => 0) ([7] : List ℕ) (1/2)).2.count 7 =
      List.count 7 [7] :=
  ⟨(C9_split_deterministic ℕ (fun _ => 0) (fun _ => 0) [7] (1/2)
      (by norm_num) (by norm_num)).1 (fun _ => rfl),
   (C9_split_deterministic ℕ (fun _ => 0) (fun _ => 0) [7] (1/2)
      (by norm_num) (by norm_num)).2 7⟩

/-- Looking up a label that is absent from the fitted list raises the
`UnknownCategory` error. -/
theorem transformLabel_not_mem {labels : List String} {x : String}
    (h : x ∉ labels) : transformLabel labels x = Except.error "UnknownCategory" := by
  unfold transformLabel
  rw [List.findIdx?_eq_none_iff.mpr]
  intro y hy
  simp only [decide_eq_false_iff_not]
  exact fun hyx => h (hyx ▸ hy)

/-- Looking up a label present in the fitted list yields some code. -/
theorem transformLabel_mem {labels : List String} {x : String}
    (h : x ∈ labels) : ∃ i : ℕ, transformLabel labels x = Except.ok i := by
  unfold transformLabel
  rw [List.findIdx?_eq_some_of_exists ⟨x, h, by simp⟩]
  exact ⟨labels.findIdx fun y => y = x, rfl⟩

/-- A successful batch transform means every record encoded
successfully. -/
theorem transformDf_ok {hi yi di pi qi : List String} :
    ∀ {rs : List EnrichedRecord} {out : List (ℚ × List ℚ)},
      transformDf hi yi di pi qi rs = Except.ok out →
      ∀ r ∈ rs, ∃ v, encodeRecord hi yi di pi qi r = Except.ok v := by
  intro rs
  induction rs with
  | nil => intro out _ r hr; simp at hr
  | cons r0 rs ih =>
    intro out htr r hr
    simp only [transformDf] at htr
    cases henc : encodeRecord hi yi di pi qi r0 with
    | error e => rw [henc] at htr; simp at htr
    | ok v =>
      rw [henc] at htr
      cases hrest : transformDf hi yi di pi qi rs with
      | error e => rw [hrest] at htr; simp at htr
      | ok vs =>
        rcases List.mem_cons.mp hr with rfl | hr2
        · exact ⟨v, henc⟩
        · exact ih hrest r hr2

/-- C8: a record whose label for any of the five categorical fields
is absent from that field's fitted index fails its encoding, and any
batch containing the record fails, with the `UnknownCategory` error —
no all-zero vector and no out-of-bounds access is produced. -/
theorem C8_unknown_category_fails :
    ∀ (hourIdx yearIdx dowIdx puzIdx dozIdx : List String)
      (r : EnrichedRecord) (rs : List EnrichedRecord),
      (r.pickup_hour ∉ hourIdx ∨ r.pickup_year ∉ yearIdx ∨
        r.pickup_dow ∉ dowIdx ∨ r.pickup_zone ∉ puzIdx ∨
        r.dropoff_zone ∉ dozIdx) →
      encodeRecord hourIdx yearIdx dowIdx puzIdx dozIdx r =
        Except.error "UnknownCategory" ∧
      (r ∈ rs → ∀ out, transformDf hourIdx yearIdx dowIdx puzIdx dozIdx rs ≠
        Except.ok out) := by
  intro hourIdx yearIdx dowIdx puzIdx dozIdx r rs hmem
  have h2 : encodeRecord hourIdx yearIdx dowIdx puzIdx dozIdx r =
      Except.error "UnknownCategory" := by
    by_cases h1 : r.pickup_hour ∈ hourIdx
    · obtain ⟨c1, hc1⟩ := transformLabel_mem h1
      by_cases hy : r.pickup_year ∈ yearIdx
      · obtain ⟨c2, hc2⟩ := transformLabel_mem hy
        by_cases hd : r.pickup_dow ∈ dowIdx
        · obtain ⟨c3, hc3⟩ := transformLabel_mem hd
          by_cases hp : r.pickup_zone ∈ puzIdx
          · obtain ⟨c4, hc4⟩ := transformLabel_mem hp
            have hq : r.dropoff_zone ∉ dozIdx := by tauto
            simp only [encodeRecord, hc1, hc2, hc3, hc4,
              transformLabel_not_mem hq]
          · simp only [encodeRecord, hc1, hc2, hc3, transformLabel_not_mem hp]
        · simp only [encodeRecord, hc1, hc2, transformLabel_not_mem hd]
      · simp only [encodeRecord, hc1, transformLabel_not_mem hy]
    · simp only [encodeRecord, transformLabel_not_mem h1]
  refine ⟨h2, ?_⟩
  intro hr out heq
  obtain ⟨v, hv⟩ := transformDf_ok heq r hr
  rw [h2] at hv
  simp at hv

/-- C8 witness: the demo record's hour, day-of-week and zone labels
are all known to their indices, but its year label `year_2010` is
absent from the year index — the encoding and the one-record batch
both fail with `UnknownCategory`. -/
theorem C8_unknown_category_fails_witness :
    encodeRecord ["hour_1"] ["year_2009"] ["Tue"] ["zone_3"] ["zone_4"] demoRec2 =
      Except.error "UnknownCategory" ∧
    (demoRec2 ∈ ([demoRec2] : List EnrichedRecord) →
      ∀ out, transformDf ["hour_1"] ["year_2009"] ["Tue"] ["zone_3"] ["zone_4"]
          [demoRec2] ≠ Except.ok out) :=
  C8_unknown_category_fails ["hour_1"] ["year_2009"] ["Tue"] ["zone_3"] ["zone_4"]
    demoRec2 [demoRec2] (by decide)

/-- C7 counterexample: two labels `"b"` and `"a"` observed once each.
The claim's tie-break — first-seen order — would rank `"b"` first
(code 0); the fitted index instead ranks `"a"` first: equal-frequency
ties are broken lexicographically, not by first appearance. -/
theorem C7_counterexample :
    fitLabels ["b", "a"] = ["a", "b"] ∧ fitLabels ["b", "a"] ≠ ["b", "a"] := by
  constructor
  · rfl
  · decide

/-- C7 (amended): for each categorical field, `fit` indexes exactly
the distinct observed labels, without duplicates, ordered by the
fitted ranking `labelLE`: descending frequency of occurrence, with
equal-frequency ties broken by ascending lexicographic label order
(not first-seen order); a label's dense code is its position in this
list. -/
theorem C7_fit_frequency_ranking :
    ∀ xs : List String,
      (fitLabels xs).Nodup ∧
      (∀ a : String, a ∈ fitLabels xs ↔ a ∈ xs) ∧
      (fitLabels xs).Sorted (labelLE xs) := by
  intro xs
  refine ⟨?_, ?_, ?_⟩
  · exact (List.perm_insertionSort (labelLE xs) xs.dedup).nodup_iff.mpr
      (List.nodup_dedup xs)
  · intro a
    rw [fitLabels, List.mem_insertionSort, List.mem_dedup]
  · exact List.sorted_insertionSort (labelLE xs) xs.dedup

/-- C2 counterexample: on a two-record dataset in which every
categorical field has cardinality 2, the assembled vectors have
length 7, not `1 + (2+2+2+2+2) + 1 = 12`: each one-hot block has
width `cardinality - 1 = 1` (`dropLast`), and the record holding the
last-ranked label of a field gets an all-zero block rather than a 1. -/
theorem C2_counterexample :
    encode_df [demoRec1, demoRec2] =
      Except.ok [(5, [1, 1, 1, 1, 1, 1, 1]), (7, [2, 0, 0, 0, 0, 0, 2])] ∧
    ([(1 : ℚ), 1, 1, 1, 1, 1, 1] : List ℚ).length ≠ 1 + (2 + 2 + 2 + 2 + 2) + 1 := by
  constructor
  · rfl
  · decide

/-- Counting the entries of a one-hot block over `range n`: a single 1
when the code is in range, all other entries 0. -/
theorem count_range_onehot (c : ℕ) : ∀ n : ℕ,
    ((List.range n).map fun i => if i = c then (1 : ℚ) else 0).count 1 =
      (if c < n then 1 else 0) ∧
    ((List.range n).map fun i => if i = c then (1 : ℚ) else 0).count 0 =
      n - (if c < n then 1 else 0) := by
  intro n
  induction n with
  | zero => simp
  | succ n ih =>
    simp only [List.range_succ, List.map_append, List.map_singleton,
      List.count_append]
    rcases Nat.lt_trichotomy c n with hc | hc | hc
    · have h1 : c < n + 1 := by omega
      have hne : n ≠ c := by omega
      rw [if_neg hne, ih.1, ih.2, if_pos hc, if_pos h1]
      have e1 : List.count (1 : ℚ) [0] = 0 := by decide
      have e0 : List.count (0 : ℚ) [0] = 1 := by decide
      rw [e1, e0]
      omega
    · subst hc
      have h1 : c < c + 1 := by omega
      have hnn : ¬ c < c := by omega
      rw [if_pos rfl, ih.1, ih.2, if_neg hnn, if_pos h1]
      have e1 : List.count (1 : ℚ) [1] = 1 := by decide
      have e0 : List.count (0 : ℚ) [1] = 0 := by decide
      rw [e1, e0]
      omega
    · have h1 : ¬ c < n + 1 := by omega
      have h0 : ¬ c < n := by omega
      have hne : n ≠ c := by omega
      rw [if_neg hne, ih.1, ih.2, if_neg h0, if_neg h1]
      have e1 : List.count (1 : ℚ) [0] = 0 := by decide
      have e0 : List.count (0 : ℚ) [0] = 1 := by decide
      rw [e1, e0]
      omega

/-- C2 (amended): a fitted index of cardinality k expands a known
label to a one-hot block of width `k - 1` (Spark `OneHotEncoder`
default `dropLast`): codes below `k - 1` yield exactly one 1 and
`k - 2` zeros, while the last-ranked code `k - 1` yields the all-zero
block; the assembled vector has length
`1 + sum over fields of (cardinality - 1) + 1`. -/
theorem C2_onehot_dropLast :
    (∀ card c : ℕ, c < card →
      (oneHot card c).length = card - 1 ∧
      (c < card - 1 →
        (oneHot card c).count 1 = 1 ∧ (oneHot card c).count 0 = card - 2) ∧
      (c = card - 1 →
        (oneHot card c).count 1 = 0 ∧ (oneHot card c).count 0 = card - 1)) ∧
    (∀ hourIdx yearIdx dowIdx puzIdx dozIdx : List String, ∀ r : EnrichedRecord,
      r.pickup_hour ∈ hourIdx → r.pickup_year ∈ yearIdx → r.pickup_dow ∈ dowIdx →
      r.pickup_zone ∈ puzIdx → r.dropoff_zone ∈ dozIdx →
      ∃ v : List ℚ,
        encodeRecord hourIdx yearIdx dowIdx puzIdx dozIdx r =
          Except.ok (r.fare_amount, v) ∧
        v.length = 1 + ((hourIdx.length - 1) + (yearIdx.length - 1) +
          (dowIdx.length - 1) + (puzIdx.length - 1) + (dozIdx.length - 1)) + 1) := by
  constructor
  · intro card c hc
    refine ⟨by simp [oneHot], ?_, ?_⟩
    · intro hlt
      have h := count_range_onehot c (card - 1)
      constructor
      · rw [oneHot, h.1, if_pos hlt]
      · rw [oneHot, h.2, if_pos hlt]
        omega
    · intro heq
      have h := count_range_onehot c (card - 1)
      have hlt : ¬ c < card - 1 := by omega
      constructor
      · rw [oneHot, h.1, if_neg hlt]
      · rw [oneHot, h.2, if_neg hlt]
        omega
  · intro hourIdx yearIdx dowIdx puzIdx dozIdx r m1 m2 m3 m4 m5
    obtain ⟨ch, hch⟩ := transformLabel_mem m1
    obtain ⟨cy, hcy⟩ := transformLabel_mem m2
    obtain ⟨cd, hcd⟩ := transformLabel_mem m3
    obtain ⟨cp, hcp⟩ := transformLabel_mem m4
    obtain ⟨cq, hcq⟩ := transformLabel_mem m5
    refine ⟨[r.dist] ++ oneHot hourIdx.length ch ++ oneHot yearIdx.length cy ++
      oneHot dowIdx.length cd ++ oneHot puzIdx.length cp ++
      oneHot dozIdx.length cq ++ [(r.passenger_count : ℚ)], ?_, ?_⟩
    · unfold encodeRecord
      rw [hch, hcy, hcd, hcp, hcq]
    · simp only [List.length_append, List.length_singleton, oneHot,
        List.length_map, List.length_range]
      omega

/-- C2 witness: the amended width law instantiated on the demo record
against concrete two-label indices for all five fields. -/
theorem C2_onehot_dropLast_witness :
    ∃ v : List ℚ,
      encodeRecord ["hour_0", "hour_1"] ["year_2009", "year_2010"] ["Mon", "Tue"]
          ["zone_1", "zone_3"] ["zone_2", "zone_4"] demoRec1 =
        Except.ok (demoRec1.fare_amount, v) ∧
      v.length = 1 + ((List.length ["hour_0", "hour_1"] - 1) +
        (List.length ["year_2009", "year_2010"] - 1) +
        (List.length ["Mon", "Tue"] - 1) +
        (List.length ["zone_1", "zone_3"] - 1) +
        (List.length ["zone_2", "zone_4"] - 1)) + 1 :=
  C2_onehot_dropLast.2 ["hour_0", "hour_1"] ["year_2009", "year_2010"] ["Mon", "Tue"]
    ["zone_1", "zone_3"] ["zone_2", "zone_4"] demoRec1
    (by decide) (by decide) (by decide) (by decide) (by decide)
